import Mathlib

/-!
Shallow embedding of the napajs zone core (`src/zone/napa-zone.cpp`) and the
transport deserializer (`Deserializer::ReadValue`), with proofs of the
specification claims about them.

Modelling conventions:
* `shared_ptr`/`weak_ptr` identity is modelled by a `Nat` token allocated at
  zone construction; an external environment `alive : Nat → Bool` records which
  tokens still have strong references (a `weak_ptr` is expired exactly when its
  token is not alive).
* The process-wide registry `NapaZone::_zones` is an association list from the
  zone id string to the (weakly held) zone value.
* The scheduler is observed through the trace of scheduling calls a method
  performs: `Broadcast` and `Execute` return the list of actions they issue.
* `std::atomic<uint32_t>` decrement is arithmetic modulo 2^32.
-/

namespace Napa

/-- Zone settings (`settings::ZoneSettings`): the zone id and its worker count. -/
structure ZoneSettings where
  id : String
  workers : Nat
deriving DecidableEq, Repr

/-- A `NapaZone` object. `token` is the identity of the underlying heap
allocation (each construction yields a fresh token), `settings` the stored
settings. -/
structure NapaZone where
  token : Nat
  settings : ZoneSettings
deriving DecidableEq, Repr

/-- The registry state: the static map `NapaZone::_zones` (weak entries) plus
the next fresh allocation token. -/
structure ZoneRegistry where
  zones : List (String × NapaZone)
  nextToken : Nat
deriving DecidableEq, Repr

/-- `_zones.find(id)`: first entry whose key is `id`. -/
def findZone (zones : List (String × NapaZone)) (id : String) : Option NapaZone :=
  (zones.find? (fun e => e.1 == id)).map (fun e => e.2)

/-- `_zones[id] = z`: replace the entry for `id` if present, else append. -/
def insertZone (zones : List (String × NapaZone)) (id : String) (z : NapaZone) :
    List (String × NapaZone) :=
  match zones with
  | [] => [(id, z)]
  | e :: rest => if e.1 == id then (id, z) :: rest else e :: insertZone rest id z

/-- `_zones.erase(id)`: remove the entry for `id`. -/
def eraseZone (zones : List (String × NapaZone)) (id : String) :
    List (String × NapaZone) :=
  zones.eraseP (fun e => e.1 == id)

/-- Whether the registry has a non-expired entry for `id`
(`iter != _zones.end() && !iter->second.expired()`). -/
def hasLiveZone (alive : Nat → Bool) (zones : List (String × NapaZone))
    (id : String) : Bool :=
  match findZone zones id with
  | some z => alive z.token
  | none => false

/-- Outcome of `NapaZone::Create`: the returned `shared_ptr` (`none` models
`nullptr`), the registry state after the call, and how many `Scheduler`
objects were constructed during the call. -/
structure CreateResult where
  result : Option NapaZone
  state : ZoneRegistry
  schedulersConstructed : Nat
deriving DecidableEq, Repr

/-- `NapaZone::Create(settings)`: under the lock, fail if a non-expired entry
for `settings.id` exists; otherwise construct a fresh zone (which constructs
its `Scheduler`), store a weak reference in the map, and return it. -/
def NapaZone.Create (alive : Nat → Bool) (settings : ZoneSettings)
    (st : ZoneRegistry) : CreateResult :=
  if hasLiveZone alive st.zones settings.id then
    { result := none, state := st, schedulersConstructed := 0 }
  else
    let zone : NapaZone := { token := st.nextToken, settings := settings }
    { result := some zone
      state := { zones := insertZone st.zones settings.id zone
                 nextToken := st.nextToken + 1 }
      schedulersConstructed := 1 }

/-- Outcome of `NapaZone::Get`: the returned `shared_ptr` and the registry
state after the call. -/
structure GetResult where
  result : Option NapaZone
  state : ZoneRegistry
deriving DecidableEq, Repr

/-- `NapaZone::Get(id)`: under the lock, look the id up; if absent return
`nullptr`; otherwise `lock()` the weak reference — when the referent is gone,
erase the entry (lazy cleanup) and return `nullptr`, else return the zone. -/
def NapaZone.Get (alive : Nat → Bool) (id : String) (st : ZoneRegistry) :
    GetResult :=
  match findZone st.zones id with
  | none => { result := none, state := st }
  | some z =>
    if alive z.token then
      { result := some z, state := st }
    else
      { result := none
        state := { zones := eraseZone st.zones id, nextToken := st.nextToken } }

/-! ### Results and the shared completion-counter closure -/

/-- Result codes (`napa::ResultCode`); `success` is `NAPA_RESULT_SUCCESS`. -/
inductive ResultCode where
  | success
  | timeout
  | executionError
  | moduleNotFound
  | functionNotFound
  | broadcastScriptError
  | zoneNotFound
  | internalError
deriving DecidableEq, Repr

/-- A task result (`napa::Result`): a code and an opaque payload. -/
structure Result where
  code : ResultCode
  payload : String
deriving DecidableEq, Repr

/-- One invocation of the `callOnce` closure shared by the per-worker tasks of
a broadcast: decrement the shared `std::atomic<uint32_t>` counter; when the
decremented value is zero, invoke the wrapped callback with this result.
Returns the new counter value and the callback invocation, if any. -/
def callOnceStep (counter : Nat) (result : Result) : Nat × Option Result :=
  let counter' := (counter + (2 ^ 32 - 1)) % 2 ^ 32
  (counter', if counter' = 0 then some result else none)

/-- Run the `callOnce` closure over a sequence of per-worker completion
results, in completion order, starting from counter value `counter`.
Returns the final counter and the list of callback invocations made. -/
def runCallOnce (counter : Nat) : List Result → Nat × List Result
  | [] => (counter, [])
  | r :: rs =>
    let step := callOnceStep counter r
    let rest := runCallOnce step.1 rs
    (rest.1, step.2.toList ++ rest.2)

/-! ### Broadcast / Execute scheduling -/

/-- Call options carried by a function spec; `timeout` in milliseconds,
`0` meaning no timeout. -/
structure CallOptions where
  timeout : Nat
deriving DecidableEq, Repr

/-- A function call spec (`napa::FunctionSpec`): module, function, options. -/
structure FunctionSpec where
  module : String
  function : String
  options : CallOptions
deriving DecidableEq, Repr

/-- A `CallContext` as built by `Broadcast`/`Execute`: the spec it was
constructed from and the identity of the callback closure passed in
(`callbackId` identifies the closure object, so two contexts share one
closure exactly when their `callbackId`s are equal). -/
structure CallContext where
  spec : FunctionSpec
  callbackId : Nat
deriving DecidableEq, Repr

/-- The task built around a `CallContext`: either a bare `CallTask`, or a
`TimeoutTaskDecorator<CallTask>` with the given timeout in milliseconds. -/
inductive NapaTask where
  | callTask (ctx : CallContext)
  | timeoutCallTask (timeoutMs : Nat) (ctx : CallContext)
deriving DecidableEq, Repr

/-- The `CallContext` embedded in a task. -/
def NapaTask.context : NapaTask → CallContext
  | .callTask ctx => ctx
  | .timeoutCallTask _ ctx => ctx

/-- Whether the task is wrapped in a `TimeoutTaskDecorator`. -/
def NapaTask.isTimeoutWrapped : NapaTask → Bool
  | .callTask _ => false
  | .timeoutCallTask _ _ => true

/-- Build the task for one worker as `Broadcast`/`Execute` do: wrap the
`CallContext` in a `TimeoutTaskDecorator<CallTask>` when
`spec.options.timeout > 0`, else use a bare `CallTask`. -/
def makeCallTask (spec : FunctionSpec) (callbackId : Nat) : NapaTask :=
  if spec.options.timeout > 0 then
    .timeoutCallTask spec.options.timeout { spec := spec, callbackId := callbackId }
  else
    .callTask { spec := spec, callbackId := callbackId }

/-- A `ScheduleOnWorker(id, task)` call issued by `Broadcast`. -/
structure ScheduleAction where
  workerId : Nat
  task : NapaTask
deriving DecidableEq, Repr

/-- Observable behaviour of `NapaZone::Broadcast`: the initial value of the
shared completion counter, and the sequence of `ScheduleOnWorker` calls. -/
structure BroadcastOutput where
  counterInit : Nat
  actions : List ScheduleAction
deriving DecidableEq, Repr

/-- `NapaZone::Broadcast(spec, callback)` on a zone with `workers` workers:
allocate one shared counter initialised to `workers` and one shared `callOnce`
closure (identity `closureId`), then for each worker id in order build a task
over a fresh `CallContext` sharing that closure and schedule it on that
worker. -/
def NapaZone.Broadcast (workers : Nat) (spec : FunctionSpec) (closureId : Nat) :
    BroadcastOutput :=
  { counterInit := workers
    actions := (List.range workers).map (fun id =>
      { workerId := id, task := makeCallTask spec closureId }) }

/-- A scheduling call issued by `Execute`: `Schedule(task)` places the task by
the any-worker policy. -/
inductive ScheduleCall where
  | schedule (task : NapaTask)
deriving DecidableEq, Repr

/-- `NapaZone::Execute(spec, callback)`: build one task over one `CallContext`
holding the caller's callback (identity `callbackId`) and hand it to
`Schedule`. The returned list is the sequence of scheduling calls issued. -/
def NapaZone.Execute (spec : FunctionSpec) (callbackId : Nat) :
    List ScheduleCall :=
  [.schedule (makeCallTask spec callbackId)]

/-! ### Zone construction bootstrap -/

/-- What the `NapaZone` constructor's bootstrap barrier does, as observed by
the creating thread. `results` are the per-worker completion results of the
broadcast `EvalTask`, in completion order. The constructor waits on a future
that the shared `callOnce` closure fulfils with the code of the result that
drove the counter to zero, then asserts that code is `NAPA_RESULT_SUCCESS`. -/
inductive BootstrapOutcome where
  /-- The assertion passed; the constructor returns and the zone exists. -/
  | created
  /-- The assertion failed; the process aborts. -/
  | fatal
  /-- The promise was never fulfilled; `future.get()` is still blocked. -/
  | blocked
deriving DecidableEq, Repr

/-- Outcome of the `NapaZone` constructor's bootstrap for a zone with
`workers` workers, given the completion results observed so far. -/
def bootstrapOutcome (workers : Nat) (results : List Result) :
    BootstrapOutcome :=
  match (runCallOnce workers results).2 with
  | [] => .blocked
  | r :: _ => if r.code = .success then .created else .fatal

/-! ### Transport deserializer (`Deserializer::ReadValue`) -/

/-- An opaque deserialized v8 value. -/
structure V8Value where
  raw : Nat
deriving DecidableEq, Repr

/-- One entry of `SerializedData::shared_array_buffer_contents()`: the
externalized contents (`contents.first`, a data pointer and byte length) and
the holder of the shared ownership (`contents.second`). -/
structure SABContents where
  dataPtr : Nat
  byteLength : Nat
  holder : Nat
deriving DecidableEq, Repr

/-- One `TransferSharedArrayBuffer(index, buffer)` call: the transfer index
and the contents the new `SharedArrayBuffer` was created over. -/
structure TransferCall where
  index : Nat
  dataPtr : Nat
  byteLength : Nat
deriving DecidableEq, Repr

/-- The deserializer's transfer loop: for each stored contents entry, in
order, create a `SharedArrayBuffer` over it and transfer it at the next index
(`index++`, starting from the given `index`). -/
def transferAll (index : Nat) : List SABContents → List TransferCall
  | [] => []
  | c :: rest =>
    { index := index, dataPtr := c.dataPtr, byteLength := c.byteLength }
      :: transferAll (index + 1) rest

/-- Observable behaviour of `Deserializer::ReadValue`: the returned
`MaybeLocal<Value>` (`none` models the empty one), the sequence of
`TransferSharedArrayBuffer` calls, and whether the body
(`_deserializer.ReadValue(context)`) was read. -/
structure ReadValueOutcome where
  result : Option V8Value
  transfers : List TransferCall
  bodyRead : Bool
deriving DecidableEq, Repr

/-- `Deserializer::ReadValue()`. `headerResult` is what
`_deserializer.ReadHeader(context)` returns (`v8::Maybe<bool>`; `none` is
`Nothing`, i.e. failure, which makes `.To(&read_header)` return false);
`contents` is `_data->shared_array_buffer_contents()`; `body` is what
`_deserializer.ReadValue(context)` would return. If the header read fails,
return the empty `MaybeLocal` at once; otherwise transfer every stored
shared-array-buffer contents entry at consecutive indices from 0, then read
and return the body. -/
def Deserializer.ReadValue (headerResult : Option Bool)
    (contents : List SABContents) (body : Option V8Value) : ReadValueOutcome :=
  match headerResult with
  | none => { result := none, transfers := [], bodyRead := false }
  | some _ =>
    { result := body, transfers := transferAll 0 contents, bodyRead := true }

/-! ### Sample inputs used for concrete evaluations -/

/-- A sample zone object with token 0 and id `"a"`. -/
def zoneA : NapaZone := { token := 0, settings := { id := "a", workers := 2 } }

/-- A registry holding one entry for `"a"` (the zone `zoneA`). -/
def stOne : ZoneRegistry := { zones := [("a", zoneA)], nextToken := 1 }

/-- An environment in which every token has strong references. -/
def aliveAll : Nat → Bool := fun _ => true

/-- An environment in which no token has strong references. -/
def aliveNone : Nat → Bool := fun _ => false

/-- A sample function spec with a positive timeout. -/
def specT : FunctionSpec :=
  { module := "m", function := "f", options := { timeout := 5 } }

/-- A sample function spec with timeout 0. -/
def spec0 : FunctionSpec :=
  { module := "m", function := "f", options := { timeout := 0 } }

/-- A sample failing bootstrap result. -/
def rFail : Result := { code := ResultCode.broadcastScriptError, payload := "" }

/-- A sample successful bootstrap result. -/
def rOk : Result := { code := ResultCode.success, payload := "" }

/-! ## Helper lemmas -/

theorem callOnceStep_fst (c : Nat) (r : Result) (h1 : 1 ≤ c) (h2 : c ≤ 2 ^ 32) :
    (callOnceStep c r).1 = c - 1 := by
  simp only [callOnceStep]
  omega

theorem callOnceStep_snd_of_gt (c : Nat) (r : Result) (h1 : 1 < c)
    (h2 : c ≤ 2 ^ 32) : (callOnceStep c r).2 = none := by
  simp only [callOnceStep]
  have hmod : (c + (2 ^ 32 - 1)) % 2 ^ 32 = c - 1 := by omega
  simp only [hmod]
  have : ¬ (c - 1 = 0) := by omega
  simp [this]

theorem callOnceStep_one (r : Result) : callOnceStep 1 r = (0, some r) := by
  simp [callOnceStep]

theorem runCallOnce_cons (c : Nat) (r : Result) (rs : List Result) :
    runCallOnce c (r :: rs) =
      ((runCallOnce (callOnceStep c r).1 rs).1,
       (callOnceStep c r).2.toList ++ (runCallOnce (callOnceStep c r).1 rs).2) :=
  rfl

/-- While more completions are outstanding than the counter can consume, the
closure never invokes the callback. -/
theorem runCallOnce_underflow (rs : List Result) :
    ∀ c, rs.length < c → c ≤ 2 ^ 32 →
      runCallOnce c rs = (c - rs.length, []) := by
  induction rs with
  | nil => intro c _ _; simp [runCallOnce]
  | cons r rs ih =>
    intro c hlt hle
    have hlen : rs.length + 1 < c := hlt
    rw [runCallOnce_cons, callOnceStep_fst c r (by omega) hle,
        callOnceStep_snd_of_gt c r (by omega) hle,
        ih (c - 1) (by omega) (by omega)]
    simp only [List.length_cons, Option.toList_none, List.nil_append]
    congr 1
    omega

/-- Over exactly `c` completions, the closure invokes the callback exactly
once, with the last completion's result. -/
theorem runCallOnce_last (rs : List Result) :
    ∀ c, 0 < c → c ≤ 2 ^ 32 → rs.length = c →
      ∃ last, rs.getLast? = some last ∧ (runCallOnce c rs).2 = [last] := by
  induction rs with
  | nil =>
    intro c hc _ hlen
    simp at hlen
    omega
  | cons r rs ih =>
    intro c hc hle hlen
    simp only [List.length_cons] at hlen
    cases rs with
    | nil =>
      have hc1 : c = 1 := by simp at hlen; omega
      subst hc1
      refine ⟨r, rfl, ?_⟩
      rw [runCallOnce_cons, callOnceStep_one]
      simp [runCallOnce]
    | cons r' rs' =>
      have hc2 : 1 < c := by simp at hlen; omega
      obtain ⟨last, hl, hrun⟩ :=
        ih (c - 1) (by omega) (by omega) (by simp at hlen ⊢; omega)
      refine ⟨last, ?_, ?_⟩
      · rw [List.getLast?_cons_cons]
        exact hl
      · rw [runCallOnce_cons, callOnceStep_fst c r (by omega) hle,
            callOnceStep_snd_of_gt c r hc2 hle,
            Option.toList_none, List.nil_append]
        exact hrun

/-- Looking up an id just written finds the written zone. -/
theorem findZone_insertZone_self (zones : List (String × NapaZone)) (id : String)
    (z : NapaZone) : findZone (insertZone zones id z) id = some z := by
  induction zones with
  | nil => simp [insertZone, findZone]
  | cons e rest ih =>
    by_cases h : e.1 == id
    · simp [insertZone, findZone, h]
    · simp only [insertZone, h]
      rw [if_neg (by simpa using h)]
      unfold findZone
      rw [List.find?_cons_of_neg _ (by simpa using h)]
      exact ih

/-- A found zone is bounded by any bound on all registered tokens. -/
theorem findZone_token_lt (zones : List (String × NapaZone)) (id : String)
    (z : NapaZone) (n : Nat)
    (hWF : ∀ e ∈ zones, (e : String × NapaZone).2.token < n)
    (hfind : findZone zones id = some z) : z.token < n := by
  unfold findZone at hfind
  cases hf : zones.find? (fun e => e.1 == id) with
  | none => rw [hf] at hfind; simp at hfind
  | some e =>
    rw [hf] at hfind
    have h2 : e.2 = z := by simpa using hfind
    subst h2
    exact hWF e (List.mem_of_find?_eq_some hf)

theorem transferAll_length (cs : List SABContents) :
    ∀ n, (transferAll n cs).length = cs.length := by
  induction cs with
  | nil => intro n; rfl
  | cons c rest ih => intro n; simp [transferAll, ih]

/-- The `i`-th transfer call targets index `base + i` and the `i`-th stored
contents entry. -/
theorem transferAll_getElem? (cs : List SABContents) :
    ∀ (n i : Nat) (c : SABContents), cs[i]? = some c →
      (transferAll n cs)[i]? =
        some { index := n + i, dataPtr := c.dataPtr, byteLength := c.byteLength } := by
  induction cs with
  | nil => intro n i c h; simp at h
  | cons c0 rest ih =>
    intro n i c h
    cases i with
    | zero =>
      simp at h
      subst h
      simp [transferAll]
    | succ j =>
      simp only [List.getElem?_cons_succ] at h
      simp only [transferAll, List.getElem?_cons_succ]
      rw [ih (n + 1) j c h]
      congr 2
      omega

theorem hasLiveZone_true_of (alive : Nat → Bool)
    (zones : List (String × NapaZone)) (id : String) (z : NapaZone)
    (hf : findZone zones id = some z) (ha : alive z.token = true) :
    hasLiveZone alive zones id = true := by
  unfold hasLiveZone
  rw [hf]
  exact ha

theorem hasLiveZone_false_of_dead (alive : Nat → Bool)
    (zones : List (String × NapaZone)) (id : String) (z : NapaZone)
    (hf : findZone zones id = some z) (ha : alive z.token = false) :
    hasLiveZone alive zones id = false := by
  unfold hasLiveZone
  rw [hf]
  exact ha

/-! ## Claim theorems -/

/-- C3: `Create(settings)` fails (returns the null handle) exactly when a
still-live zone is registered under `settings.id`; when no live zone has that
id it returns the freshly constructed zone handle. -/
theorem create_rejects_live_duplicate (alive : Nat → Bool)
    (settings : ZoneSettings) (st : ZoneRegistry) :
    ((∃ z, findZone st.zones settings.id = some z ∧ alive z.token = true) →
      (NapaZone.Create alive settings st).result = none) ∧
    ((∀ z, findZone st.zones settings.id = some z → alive z.token = false) →
      (NapaZone.Create alive settings st).result =
        some { token := st.nextToken, settings := settings }) := by
  constructor
  · rintro ⟨z, hf, ha⟩
    have hl := hasLiveZone_true_of alive st.zones settings.id z hf ha
    unfold NapaZone.Create
    rw [hl]
    rfl
  · intro hdead
    have hl : hasLiveZone alive st.zones settings.id = false := by
      unfold hasLiveZone
      cases hf : findZone st.zones settings.id with
      | none => rfl
      | some z => exact hdead z hf
    unfold NapaZone.Create
    rw [hl]
    rfl

/-- Witness for C3: in a registry where `"a"` maps to a zone whose token is
still alive, `Create` for id `"a"` returns the null handle. -/
theorem create_rejects_live_duplicate_witness :
    (NapaZone.Create aliveAll { id := "a", workers := 4 } stOne).result = none :=
  (create_rejects_live_duplicate aliveAll { id := "a", workers := 4 } stOne).1
    ⟨zoneA, rfl, rfl⟩

/-- When a live entry for the id is found, `Get` returns its zone. -/
theorem get_of_found_live (alive : Nat → Bool) (id : String)
    (st : ZoneRegistry) (z : NapaZone)
    (hf : findZone st.zones id = some z) (ha : alive z.token = true) :
    (NapaZone.Get alive id st).result = some z := by
  unfold NapaZone.Get
  rw [hf]
  simp [ha]

/-- C4: after a successful `Create`, while the returned handle is still
strongly referenced, `Get` on the same id returns that very handle. -/
theorem get_after_create_roundtrip (alive : Nat → Bool)
    (settings : ZoneSettings) (st : ZoneRegistry) (z : NapaZone)
    (hc : (NapaZone.Create alive settings st).result = some z)
    (ha : alive z.token = true) :
    (NapaZone.Get alive settings.id
      (NapaZone.Create alive settings st).state).result = some z := by
  by_cases hl : hasLiveZone alive st.zones settings.id = true
  · unfold NapaZone.Create at hc
    rw [if_pos hl] at hc
    simp at hc
  · unfold NapaZone.Create at hc ⊢
    rw [if_neg hl] at hc ⊢
    have hz : z = ({ token := st.nextToken, settings := settings } : NapaZone) := by
      simpa using hc.symm
    subst hz
    exact get_of_found_live alive settings.id
      { zones := insertZone st.zones settings.id
          { token := st.nextToken, settings := settings }
        nextToken := st.nextToken + 1 }
      { token := st.nextToken, settings := settings }
      (findZone_insertZone_self st.zones settings.id _) ha

/-- Witness for C4: creating `"b"` in the one-entry registry and then
getting `"b"` returns the zone `Create` returned. -/
theorem get_after_create_roundtrip_witness :
    (NapaZone.Get aliveAll "b"
      (NapaZone.Create aliveAll { id := "b", workers := 1 } stOne).state).result =
      some { token := 1, settings := { id := "b", workers := 1 } } :=
  get_after_create_roundtrip aliveAll { id := "b", workers := 1 } stOne
    { token := 1, settings := { id := "b", workers := 1 } } rfl rfl

/-- C5: when the zone registered under an id has been destroyed (its weak
entry is expired), `Create` with that id succeeds and returns a fresh handle,
distinct from the destroyed one, without requiring the stale entry to have
been removed. -/
theorem create_after_destroy_succeeds (alive : Nat → Bool)
    (settings : ZoneSettings) (st : ZoneRegistry) (z : NapaZone)
    (hfind : findZone st.zones settings.id = some z)
    (hdead : alive z.token = false)
    (hWF : ∀ e ∈ st.zones, (e : String × NapaZone).2.token < st.nextToken) :
    ∃ fresh, (NapaZone.Create alive settings st).result = some fresh ∧
      fresh.settings = settings ∧ fresh ≠ z := by
  have hl := hasLiveZone_false_of_dead alive st.zones settings.id z hfind hdead
  refine ⟨{ token := st.nextToken, settings := settings }, ?_, rfl, ?_⟩
  · unfold NapaZone.Create
    rw [hl]
    rfl
  · have htok := findZone_token_lt st.zones settings.id z st.nextToken hWF hfind
    intro he
    have : st.nextToken = z.token := congrArg NapaZone.token he
    omega

/-- Witness for C5: with no strong references left, re-creating `"a"` in the
one-entry registry succeeds with a fresh handle. -/
theorem create_after_destroy_succeeds_witness :
    ∃ fresh,
      (NapaZone.Create aliveNone { id := "a", workers := 2 } stOne).result =
        some fresh ∧
      fresh.settings = { id := "a", workers := 2 } ∧ fresh ≠ zoneA :=
  create_after_destroy_succeeds aliveNone { id := "a", workers := 2 } stOne zoneA
    rfl rfl (by decide)

/-- C6: `Get` returns the live zone when a live entry exists; returns nothing
when no entry exists (registry untouched) or when the entry's referent is
destroyed, and in the latter case it erases exactly that entry and performs
no other mutation. -/
theorem get_lazy_reap_spec (alive : Nat → Bool) (id : String)
    (st : ZoneRegistry) :
    (findZone st.zones id = none →
      NapaZone.Get alive id st = { result := none, state := st }) ∧
    (∀ z, findZone st.zones id = some z → alive z.token = true →
      NapaZone.Get alive id st = { result := some z, state := st }) ∧
    (∀ z, findZone st.zones id = some z → alive z.token = false →
      NapaZone.Get alive id st =
        { result := none
          state := { zones := eraseZone st.zones id
                     nextToken := st.nextToken } }) := by
  refine ⟨?_, ?_, ?_⟩
  · intro hf
    unfold NapaZone.Get
    rw [hf]
  · intro z hf ha
    unfold NapaZone.Get
    rw [hf]
    simp only [ha]
    rfl
  · intro z hf ha
    unfold NapaZone.Get
    rw [hf]
    simp only [ha]
    rfl

/-- Witness for C6: getting `"a"` when its referent is destroyed returns
nothing and erases the stale entry. -/
theorem get_lazy_reap_spec_witness :
    NapaZone.Get aliveNone "a" stOne =
      { result := none
        state := { zones := eraseZone stOne.zones "a"
                   nextToken := stOne.nextToken } } :=
  (get_lazy_reap_spec aliveNone "a" stOne).2.2 zoneA rfl rfl

/-- C9: a `Create` that fails because a live zone already owns the id has no
side effects: null result, registry state unchanged, and no `Scheduler`
constructed. -/
theorem create_duplicate_no_side_effects (alive : Nat → Bool)
    (settings : ZoneSettings) (st : ZoneRegistry) (z : NapaZone)
    (hfind : findZone st.zones settings.id = some z)
    (hlive : alive z.token = true) :
    NapaZone.Create alive settings st =
      { result := none, state := st, schedulersConstructed := 0 } := by
  have hl := hasLiveZone_true_of alive st.zones settings.id z hfind hlive
  unfold NapaZone.Create
  rw [hl]
  rfl

/-- Witness for C9: the failing duplicate `Create` on the one-entry registry
leaves the registry exactly as it was and constructs nothing. -/
theorem create_duplicate_no_side_effects_witness :
    NapaZone.Create aliveAll { id := "a", workers := 4 } stOne =
      { result := none, state := stOne, schedulersConstructed := 0 } :=
  create_duplicate_no_side_effects aliveAll { id := "a", workers := 4 } stOne
    zoneA rfl rfl

/-- C1: for a Broadcast on a zone with `N` workers, over the `N` per-worker
completions (in completion order) the shared closure, whose counter Broadcast
initialises to `N`, invokes the user callback exactly once, with the result of
the last worker to complete; earlier results are discarded. -/
theorem broadcast_callback_once_with_last_result (N : Nat) (spec : FunctionSpec)
    (closureId : Nat) (results : List Result)
    (hN : 0 < N) (hlen : results.length = N) (hbound : N ≤ 2 ^ 32) :
    ∃ last, results.getLast? = some last ∧
      (runCallOnce (NapaZone.Broadcast N spec closureId).counterInit results).2 =
        [last] :=
  runCallOnce_last results N hN hbound hlen

/-- Witness for C1: three workers completing with three distinct results make
the callback fire once, with the third result. -/
theorem broadcast_callback_once_with_last_result_witness :
    ∃ last,
      ([{ code := ResultCode.success, payload := "r0" },
        { code := ResultCode.timeout, payload := "r1" },
        { code := ResultCode.success, payload := "r2" }] : List Result).getLast? =
        some last ∧
      (runCallOnce (NapaZone.Broadcast 3 specT 0).counterInit
        [{ code := ResultCode.success, payload := "r0" },
         { code := ResultCode.timeout, payload := "r1" },
         { code := ResultCode.success, payload := "r2" }]).2 = [last] :=
  broadcast_callback_once_with_last_result 3 specT 0 _ (by norm_num) rfl
    (by norm_num)

/-- C2 counterexample: with two workers whose bootstrap completions are a
failure followed by a success, one worker's bootstrap evaluation failed and
yet the constructor's assertion passes — zone creation completes instead of
aborting. -/
theorem bootstrap_any_failure_not_fatal :
    rFail.code ≠ ResultCode.success ∧
    bootstrapOutcome 2 [rFail, rOk] = BootstrapOutcome.created := by
  constructor
  · decide
  · decide

/-- C2 (amended): zone creation blocks until all `N` workers have completed
the bootstrap broadcast (on every proper prefix of completions the barrier is
still blocked), and it is fatal exactly when the code of the last worker to
complete is not success; failures of earlier-completing workers are
discarded. -/
theorem bootstrap_barrier_last_writer (N : Nat) (results : List Result)
    (hN : 0 < N) (hlen : results.length = N) (hbound : N ≤ 2 ^ 32) :
    (∀ k, k < N →
      bootstrapOutcome N (results.take k) = BootstrapOutcome.blocked) ∧
    ∃ last, results.getLast? = some last ∧
      bootstrapOutcome N results =
        (if last.code = ResultCode.success then BootstrapOutcome.created
         else BootstrapOutcome.fatal) := by
  constructor
  · intro k hk
    unfold bootstrapOutcome
    have hlt : (results.take k).length < N := by
      rw [List.length_take]
      omega
    rw [runCallOnce_underflow (results.take k) N hlt hbound]
  · obtain ⟨last, hl, hrun⟩ := runCallOnce_last results N hN hbound hlen
    refine ⟨last, hl, ?_⟩
    unfold bootstrapOutcome
    rw [hrun]

/-- Witness for C2 (amended): with completions `[rFail, rOk]` the barrier is
still blocked after one completion, and the outcome is decided by the last
result (`rOk`), so the zone is created. -/
theorem bootstrap_barrier_last_writer_witness :
    bootstrapOutcome 2 ([rFail, rOk].take 1) = BootstrapOutcome.blocked ∧
    (∃ last, [rFail, rOk].getLast? = some last ∧
      bootstrapOutcome 2 [rFail, rOk] =
        (if last.code = ResultCode.success then BootstrapOutcome.created
         else BootstrapOutcome.fatal)) :=
  ⟨(bootstrap_barrier_last_writer 2 [rFail, rOk] (by norm_num) rfl
      (by norm_num)).1 1 (by norm_num),
   (bootstrap_barrier_last_writer 2 [rFail, rOk] (by norm_num) rfl
      (by norm_num)).2⟩

/-- C7: Broadcast on a zone with `workers` workers initialises the shared
completion counter to `workers`, issues one `ScheduleOnWorker` call per worker
id — exactly the ids `0, …, workers-1` in order — and every scheduled task
carries a `CallContext` built from the spec sharing the single closure, and is
wrapped in a `TimeoutTaskDecorator` iff `spec.options.timeout > 0`. -/
theorem broadcast_schedules_each_worker_once (workers : Nat)
    (spec : FunctionSpec) (closureId : Nat) :
    (NapaZone.Broadcast workers spec closureId).counterInit = workers ∧
    (NapaZone.Broadcast workers spec closureId).actions.map
        (fun a => a.workerId) = List.range workers ∧
    (∀ a ∈ (NapaZone.Broadcast workers spec closureId).actions,
      a.task.context = { spec := spec, callbackId := closureId } ∧
      (a.task.isTimeoutWrapped = true ↔ 0 < spec.options.timeout)) := by
  refine ⟨rfl, ?_, ?_⟩
  · unfold NapaZone.Broadcast
    simp only [List.map_map]
    have hcomp : ((fun a => a.workerId) ∘
        fun id => ({ workerId := id, task := makeCallTask spec closureId } :
          ScheduleAction)) = id := rfl
    rw [hcomp, List.map_id]
  · intro a ha
    unfold NapaZone.Broadcast at ha
    simp only [List.mem_map, List.mem_range] at ha
    obtain ⟨i, hi, rfl⟩ := ha
    constructor
    · unfold makeCallTask NapaTask.context
      by_cases h : 0 < spec.options.timeout
      · rw [if_pos h]
      · rw [if_neg h]
    · unfold makeCallTask NapaTask.isTimeoutWrapped
      by_cases h : 0 < spec.options.timeout
      · rw [if_pos h]
        simp [h]
      · rw [if_neg h]
        simp [h]

/-- Witness for C7: broadcasting over two workers with a positive timeout
schedules on worker ids `[0, 1]`, and the task scheduled on worker 1 carries
the shared context and is timeout-wrapped. -/
theorem broadcast_schedules_each_worker_once_witness :
    (NapaZone.Broadcast 2 specT 7).counterInit = 2 ∧
    (NapaZone.Broadcast 2 specT 7).actions.map (fun a => a.workerId) =
      List.range 2 ∧
    (({ workerId := 1, task := makeCallTask specT 7 } :
        ScheduleAction).task.context = { spec := specT, callbackId := 7 } ∧
      (({ workerId := 1, task := makeCallTask specT 7 } :
          ScheduleAction).task.isTimeoutWrapped = true ↔
        0 < specT.options.timeout)) := by
  have h := broadcast_schedules_each_worker_once 2 specT 7
  refine ⟨h.1, h.2.1, h.2.2 { workerId := 1, task := makeCallTask specT 7 } ?_⟩
  show _ ∈ (NapaZone.Broadcast 2 specT 7).actions
  decide

/-- C8: Execute builds exactly one task over one `CallContext` from the spec
and the caller's callback, wraps it in a `TimeoutTaskDecorator` iff
`spec.options.timeout > 0`, and issues exactly one `Schedule` (any-worker)
call with it. -/
theorem execute_schedules_single_task (spec : FunctionSpec) (callbackId : Nat) :
    ∃ t, NapaZone.Execute spec callbackId = [ScheduleCall.schedule t] ∧
      t.context = { spec := spec, callbackId := callbackId } ∧
      (t.isTimeoutWrapped = true ↔ 0 < spec.options.timeout) := by
  refine ⟨makeCallTask spec callbackId, rfl, ?_, ?_⟩
  · unfold makeCallTask NapaTask.context
    by_cases h : 0 < spec.options.timeout
    · rw [if_pos h]
    · rw [if_neg h]
  · unfold makeCallTask NapaTask.isTimeoutWrapped
    by_cases h : 0 < spec.options.timeout
    · rw [if_pos h]
      simp [h]
    · rw [if_neg h]
      simp [h]

/-- Witness for C8: executing a spec with timeout 0 issues a single Schedule
call with an unwrapped task over the right context. -/
theorem execute_schedules_single_task_witness :
    ∃ t, NapaZone.Execute spec0 9 = [ScheduleCall.schedule t] ∧
      t.context = { spec := spec0, callbackId := 9 } ∧
      (t.isTimeoutWrapped = true ↔ 0 < spec0.options.timeout) :=
  execute_schedules_single_task spec0 9

/-- C10: `ReadValue` returns the empty `MaybeLocal` without transferring any
shared-array-buffer contents and without reading the body when the header
read fails; otherwise it transfers the stored contents entries at consecutive
indices from 0 in stored order and then reads the body. -/
theorem readValue_header_gates_transfers (headerResult : Option Bool)
    (contents : List SABContents) (body : Option V8Value) :
    (headerResult = none →
      Deserializer.ReadValue headerResult contents body =
        { result := none, transfers := [], bodyRead := false }) ∧
    (∀ b, headerResult = some b →
      (Deserializer.ReadValue headerResult contents body).result = body ∧
      (Deserializer.ReadValue headerResult contents body).bodyRead = true ∧
      (Deserializer.ReadValue headerResult contents body).transfers.length =
        contents.length ∧
      (∀ (i : Nat) (c : SABContents), contents[i]? = some c →
        (Deserializer.ReadValue headerResult contents body).transfers[i]? =
          some { index := i, dataPtr := c.dataPtr,
                 byteLength := c.byteLength })) := by
  constructor
  · intro h
    subst h
    rfl
  · intro b h
    subst h
    refine ⟨rfl, rfl, ?_, ?_⟩
    · show (transferAll 0 contents).length = contents.length
      exact transferAll_length contents 0
    · intro i c hc
      show (transferAll 0 contents)[i]? = _
      have ht := transferAll_getElem? contents 0 i c hc
      simpa using ht

/-- Witness for C10: with a successfully read header and two stored contents
entries, the second entry is transferred at index 1 with its own data. -/
theorem readValue_header_gates_transfers_witness :
    (Deserializer.ReadValue (some true)
        [{ dataPtr := 100, byteLength := 4, holder := 0 },
         { dataPtr := 200, byteLength := 8, holder := 1 }]
        (some { raw := 42 })).transfers[1]? =
      some { index := 1, dataPtr := 200, byteLength := 8 } :=
  ((readValue_header_gates_transfers (some true)
      [{ dataPtr := 100, byteLength := 4, holder := 0 },
       { dataPtr := 200, byteLength := 8, holder := 1 }]
      (some { raw := 42 })).2 true rfl).2.2.2 1
    { dataPtr := 200, byteLength := 8, holder := 1 } rfl

end Napa
